import Mathlib

/-!
# Verification of a two-pass assembler

A shallow embedding, in Lean 4, of the C sources of a two-pass assembler
(preprocessor `pre_asm.c`, first pass `first_pass.c`, second pass
`second_pass.c`, symbol table `symbol_structs.c`, lexical utilities
`utils.c`).  C strings are modelled as `List Char` (the text up to the
terminating null); the C `NULL` pointer result of `extract_remaining_seq`
is modelled as the empty list, which agrees with the source on every
reachable path (`is_empty(NULL)` is true in the source).  The process-wide
mutable globals (`ic`, `dc`, `code[]`, `data[]`, `symbol_table`,
`ext_table`, the entry/extern flags) are gathered into an explicit state
record threaded through the functions; the `code[]` and `data[]` arrays
are modelled as total functions from index to word.  Machine words are
`Nat`, with an explicit `% 2 ^ 32` wherever the C `unsigned int`
arithmetic can wrap.  C identifier names are kept wherever Lean allows.
-/

/-- C `isspace` in the default locale: space, \t, \n, \v, \f, \r. -/
def c_isspace (c : Char) : Bool :=
  c = ' ' || c = '\t' || c = '\n' || c = '\x0b' || c = '\x0c' || c = '\r'

/-- Models `skip_whitespaces` (utils.c): advance past leading whitespace.
The C `NULL` argument case is the empty list here. -/
def skip_whitespaces (s : List Char) : List Char :=
  s.dropWhile c_isspace

/-- Models `trim_whitespaces` (utils.c): remove leading and trailing whitespace. -/
def trim_whitespaces (s : List Char) : List Char :=
  ((s.dropWhile c_isspace).reverse.dropWhile c_isspace).reverse

/-- Models `trim_end_whitespaces` (utils.c): remove trailing whitespace. -/
def trim_end_whitespaces (s : List Char) : List Char :=
  (s.reverse.dropWhile c_isspace).reverse

/-- Models `is_empty` (utils.c): true when the string is empty or whitespace-only
(also models the C `NULL` argument, which the source reports as empty). -/
def is_empty (s : List Char) : Bool :=
  (skip_whitespaces s).isEmpty

/-- Models `should_ignore` (utils.c): empty/whitespace lines and `;` comments. -/
def should_ignore (s : List Char) : Bool :=
  is_empty s || (skip_whitespaces s).headD '\x00' = ';'

/-- Models `is_separator` (utils.c). -/
def is_separator (c : Char) (seps : List Char) : Bool :=
  seps.contains c

/-- Models `copy_next_token` (utils.c): skip leading whitespace, copy up to the
first separator or end of string; when the stopping character is `:` the
colon is included in the token. -/
def copy_next_token (src : List Char) (seps : List Char) : List Char :=
  let s := skip_whitespaces src
  if is_empty s then []
  else
    let tok := s.takeWhile (fun c => !is_separator c seps)
    if (s.drop tok.length).headD '\x00' = ':' then tok ++ [':'] else tok

/-- Models `extract_remaining_seq` (utils.c): skip the leading token, a following
`:` if that was the stopping character, and whitespace.  The C function
returns `NULL` for an empty/whitespace-only input; that is `[]` here. -/
def extract_remaining_seq (seq : List Char) (seps : List Char) : List Char :=
  let s := skip_whitespaces seq
  if is_empty s then []
  else
    let r := s.dropWhile (fun c => !is_separator c seps)
    let r := if r.headD '\x00' = ':' then r.drop 1 else r
    skip_whitespaces r

/-- Models `is_register` (utils.c): exactly `@r<d>` with `<d>` between 0 and 7. -/
def is_register (token : List Char) : Bool :=
  match token with
  | [a, b, c] => a = '@' && b = 'r' && c.isDigit && c.toNat - 48 ≤ 7
  | _ => false

/-- Opcode enumeration (utils.h); `NONE_OP` is modelled by `Option`. -/
inductive opcode where
  | MOV_OP | CMP_OP | ADD_OP | SUB_OP | NOT_OP | CLR_OP | LEA_OP | INC_OP
  | DEC_OP | JMP_OP | BNE_OP | RED_OP | PRN_OP | JSR_OP | RTS_OP | STOP_OP
  deriving DecidableEq, Repr

/-- Numeric value of each opcode, as in the C enum (0..15). -/
def opcode_val : opcode → Nat
  | .MOV_OP => 0 | .CMP_OP => 1 | .ADD_OP => 2 | .SUB_OP => 3
  | .NOT_OP => 4 | .CLR_OP => 5 | .LEA_OP => 6 | .INC_OP => 7
  | .DEC_OP => 8 | .JMP_OP => 9 | .BNE_OP => 10 | .RED_OP => 11
  | .PRN_OP => 12 | .JSR_OP => 13 | .RTS_OP => 14 | .STOP_OP => 15

/-- Directive enumeration (utils.h); `NONE_DIR` is modelled by `Option`.
The `.extern` constructor is named `EXTERN_DIR` here. -/
inductive directive where
  | DATA | STRING | ENTRY | EXTERN_DIR
  deriving DecidableEq, Repr

/-- ARE tag enumeration (utils.h): Absolute = 0, External = 1,
Relocatable = 2. -/
inductive are where
  | ABSOLUTE | EXTERNAL | RELOCATABLE
  deriving DecidableEq, Repr

/-- Numeric value of the ARE tag. -/
def are_val : are → Nat
  | .ABSOLUTE => 0 | .EXTERNAL => 1 | .RELOCATABLE => 2

/-- Addressing-mode enumeration (utils.h), including the `NONE_ADDR`
sentinel the C source initialises operands with. -/
inductive addressing_mode where
  | IMMEDIATE_ADDR | DIRECT_ADDR | REG_DIRECT_ADDR | NONE_ADDR
  deriving DecidableEq, Repr

/-- The C enum values: IMMEDIATE = 1, DIRECT = 3, REG_DIRECT = 5,
NONE = -1. -/
def addressing_mode_val : addressing_mode → Int
  | .IMMEDIATE_ADDR => 1 | .DIRECT_ADDR => 3 | .REG_DIRECT_ADDR => 5
  | .NONE_ADDR => -1

/-- The addressing-mode value as it enters the C bit arithmetic (which is
on `int`).  `NONE_ADDR` maps to `(-1).toNat = 0`; the source only ever
reads a mode in a branch where the corresponding operand is present, and
pass 1 rejects a present operand whose mode is `NONE_ADDR`
(`OP_INVALID_ADDR_MODE`) before any encoding, so the `NONE_ADDR` value of
this function is never exercised on a reachable path. -/
def mode_field (m : addressing_mode) : Nat :=
  (addressing_mode_val m).toNat

/-- Models `find_operation` (utils.c): exact match of the operation name;
`none` models `NONE_OP`. -/
def find_operation (op_name : List Char) : Option opcode :=
  if op_name = "mov".toList then some .MOV_OP
  else if op_name = "cmp".toList then some .CMP_OP
  else if op_name = "add".toList then some .ADD_OP
  else if op_name = "sub".toList then some .SUB_OP
  else if op_name = "not".toList then some .NOT_OP
  else if op_name = "clr".toList then some .CLR_OP
  else if op_name = "lea".toList then some .LEA_OP
  else if op_name = "inc".toList then some .INC_OP
  else if op_name = "dec".toList then some .DEC_OP
  else if op_name = "jmp".toList then some .JMP_OP
  else if op_name = "bne".toList then some .BNE_OP
  else if op_name = "red".toList then some .RED_OP
  else if op_name = "prn".toList then some .PRN_OP
  else if op_name = "jsr".toList then some .JSR_OP
  else if op_name = "rts".toList then some .RTS_OP
  else if op_name = "stop".toList then some .STOP_OP
  else none

/-- Models `find_directive` (utils.c); `none` models `NONE_DIR`. -/
def find_directive (dir_name : List Char) : Option directive :=
  if dir_name = ".data".toList then some .DATA
  else if dir_name = ".string".toList then some .STRING
  else if dir_name = ".entry".toList then some .ENTRY
  else if dir_name = ".extern".toList then some .EXTERN_DIR
  else none

/-- Models `MAX_SYMBOL_LEN` (utils.h). -/
def MAX_SYMBOL_LEN : Nat := 31

/-- Models `MEM_START` (utils.h). -/
def MEM_START : Nat := 100

/-- Models `ARE_BITS` (utils.h). -/
def ARE_BITS : Nat := 2

/-- Models `OPCODE_BITS` (first_pass.h). -/
def OPCODE_BITS : Nat := 4

/-- Models `ADDR_MODE_BITS` (first_pass.h). -/
def ADDR_MODE_BITS : Nat := 3

/-- Models `MAX_MCR_LEN` (pre_asm.h). -/
def MAX_MCR_LEN : Nat := 31

/-- Models `DEFAULT_ADDR` (first_pass.h). -/
def DEFAULT_ADDR : Nat := 0

/-- Models `OP_MAX_NUM_COMMAS` (first_pass.h). -/
def OP_MAX_NUM_COMMAS : Nat := 1

/-- Models `is_symbol` (utils.c).  When a colon is expected it must terminate the
token (and is stripped); then the name must be at most `MAX_SYMBOL_LEN`
characters, not a register/operation/directive name, start with an
alphabetic character and continue with alphanumerics.  (For an empty token
with `is_colon_expected` the C source reads one byte before the buffer —
undefined behaviour, unreachable from trimmed non-ignored lines with a
leading `:`-free token; the byte is never `:` in practice, so the model
returns `false` there.) -/
def is_symbol (token : List Char) (is_colon_expected : Bool) : Bool :=
  if is_colon_expected && !(token.getLast? = some ':') then false
  else
    let body := if is_colon_expected then token.dropLast else token
    if body.length > MAX_SYMBOL_LEN then false
    else if is_register body then false
    else if (find_operation body).isSome then false
    else if (find_directive body).isSome then false
    else if !(body.headD '\x00').isAlpha then false
    else (body.drop 1).all Char.isAlphanum

/-- Models `is_number` (first_pass.c): an optional leading sign must be followed
by a digit; afterwards every remaining character must be a digit.  Note
the signless branch accepts the empty string (the `while` loop is
vacuous). -/
def is_number (seq : List Char) : Bool :=
  match seq with
  | [] => true
  | c :: rest =>
    if c = '+' || c = '-' then
      match rest with
      | [] => false
      | d :: rest2 => d.isDigit && rest2.all Char.isDigit
    else (c :: rest).all Char.isDigit

/-- Models `is_string` (first_pass.c): length at least 2, first and last
characters `"`, no interior `"`. -/
def is_string (str : List Char) : Bool :=
  str.length ≥ 2 && str.headD '\x00' = '\"' && str.getLast? = some '\"' &&
    ((str.drop 1).dropLast.all (fun c => c ≠ '\"'))

/-- Models `is_macro` (pre_asm.c), renamed `is_mcr` here: a name is accepted when
it is at most `MAX_MCR_LEN` characters and is not a register, operation or
directive name.  (The source performs no further character checks.) -/
def is_mcr (token : List Char) : Bool :=
  if token.length > MAX_MCR_LEN then false
  else if is_register token then false
  else if (find_operation token).isSome then false
  else if (find_directive token).isSome then false
  else true

/-- Models `atoi` from the C standard library: optional whitespace, optional
sign, then the longest digit prefix (0 when there is none). -/
def atoi (s : List Char) : Int :=
  let s := s.dropWhile c_isspace
  let f : Int × List Char :=
    match s with
    | '+' :: r => (1, r)
    | '-' :: r => (-1, r)
    | _ => (1, s)
  f.1 * ((f.2.takeWhile Char.isDigit).foldl
    (fun acc c => acc * 10 + ((c.toNat : Int) - 48)) (0 : Int))

/-- Models `count_commas` (first_pass.c). -/
def count_commas (s : List Char) : Nat :=
  s.countP (fun c => c = ',')

/-- Models `has_consecutive_commas` (first_pass.c): two commas separated only by
whitespace. -/
def has_consecutive_commas : List Char → Bool :=
  go false
where
  /-- The loop of `has_consecutive_commas`; the flag is `comma_found`. -/
  go (comma_found : Bool) : List Char → Bool
  | [] => false
  | c :: rest =>
    if c = ',' && comma_found then true
    else if c = ',' then go true rest
    else if !c_isspace c then go false rest
    else go comma_found rest

/-- Models `encode_are` (utils.c): shift the value part left by `ARE_BITS` and OR
in the ARE code; the `unsigned int` shift wraps modulo `2 ^ 32`. -/
def encode_are (word : Nat) (are_v : are) : Nat :=
  ((word <<< ARE_BITS) % 2 ^ 32) ||| are_val are_v

/-- Models `extract_bits` (utils.c): bits `start..end` of a word. -/
def extract_bits (word : Nat) (start fin : Nat) : Nat :=
  (word >>> start) &&& ((1 <<< (fin - start + 1)) - 1)

/-! ## Symbol table and assembler state (symbol_structs.c, globals.h) -/

/-- Models `statement_type` (symbol_structs.h). -/
inductive statement_type where
  | INSTRUCTION | DIRECTIVE
  deriving DecidableEq, Repr

/-- Models `struct symbol` (symbol_structs.c). -/
structure symbol where
  name : List Char
  address : Nat
  type : statement_type
  is_ext : Bool
  is_ent : Bool
  deriving DecidableEq, Repr

/-- The process-wide globals of globals.h gathered into one record.  The
`code[]` and `data[]` arrays are total functions from index to stored
word. -/
structure AsmState where
  ic : Nat
  dc : Nat
  code : Nat → Nat
  data : Nat → Nat
  symbol_table : List symbol
  ext_table : List (List Char × Nat)
  is_entry_exists : Bool
  is_extern_exists : Bool

/-- The state at the start of a pass: zero counters, zero-filled segments,
empty tables, cleared flags. -/
def initState : AsmState :=
  ⟨0, 0, fun _ => 0, fun _ => 0, [], [], false, false⟩

/-- Models `find_symbol` (symbol_structs.c): first symbol with the given name. -/
def find_symbol (table : List symbol) (name : List Char) : Option symbol :=
  match table with
  | [] => none
  | s :: rest => if s.name = name then some s else find_symbol rest name

/-- Models `is_existing_symbol` (symbol_structs.c). -/
def is_existing_symbol (head : List symbol) (name : List Char) : Bool :=
  (find_symbol head name).isSome

/-- Models `get_symbol_addr` (symbol_structs.c).  The not-found result is the C
`NONE_ADDR` (-1) converted to `unsigned int`, i.e. `2 ^ 32 - 1`; it is
only produced on paths that already checked `is_existing_symbol`. -/
def get_symbol_addr (head : List symbol) (name : List Char) : Nat :=
  match find_symbol head name with
  | some s => s.address
  | none => 2 ^ 32 - 1

/-- Models `is_extern_symbol` (symbol_structs.c). -/
def is_extern_symbol (head : List symbol) (name : List Char) : Bool :=
  match find_symbol head name with
  | some s => s.is_ext
  | none => false

/-- Models `create_symbol` (symbol_structs.c).  For an external symbol the type
is set to `DIRECTIVE`; for a non-external one the C source leaves the
field uninitialised and every caller assigns it before the symbol can be
read (or deletes the symbol), so `INSTRUCTION` here is an arbitrary
placeholder. -/
def create_symbol (name : List Char) (address : Nat) (is_ext : Bool) : symbol :=
  { name := name, address := address,
    type := if is_ext then .DIRECTIVE else .INSTRUCTION,
    is_ext := is_ext, is_ent := false }

/-- Models `add_symbol_to_list` together with the `is_extern_exists` update done
by `create_symbol`: refuse a duplicate name (`SYMBOL_ALREADY_EXISTS`,
returning `none` for the C `NULL`), otherwise append the new symbol at
the end of the table. -/
def add_symbol_to_list (st : AsmState) (name : List Char) (address : Nat)
    (is_ext : Bool) : Option AsmState :=
  if is_existing_symbol st.symbol_table name then none
  else some { st with
    symbol_table := st.symbol_table ++ [create_symbol name address is_ext],
    is_extern_exists := st.is_extern_exists || is_ext }

/-- Models `delete_symbol` (symbol_structs.c): remove the first symbol with the
given name, if any. -/
def delete_symbol (head : List symbol) (name : List Char) : List symbol :=
  match head with
  | [] => []
  | s :: rest => if s.name = name then rest else s :: delete_symbol rest name

/-- The field assignments `current_symbol->type = t; current_symbol->address = a`
that parse_line performs through the pointer returned by
`add_symbol_to_list`.  Since `add_symbol_to_list` refuses duplicate names,
updating by name touches exactly the node that pointer designates. -/
def set_symbol_type_addr (table : List symbol) (name : List Char)
    (t : statement_type) (a : Nat) : List symbol :=
  table.map fun s => if s.name = name then { s with type := t, address := a } else s

/-- Models `update_symbol_addr` (symbol_structs.c): add `addr_inc` to the address
of every non-external symbol of the given statement type (`unsigned int`
addition, wrapping modulo `2 ^ 32`). -/
def update_symbol_addr (table : List symbol) (addr_inc : Nat)
    (t : statement_type) : List symbol :=
  table.map fun s =>
    if !s.is_ext && s.type = t then
      { s with address := (s.address + addr_inc) % 2 ^ 32 }
    else s

/-- Models `make_entry` (symbol_structs.c), acting on the state: an external
symbol cannot be an entry (`ENTRY_CANNOT_BE_EXTERN`); a missing symbol is
an error (`ENTRY_SYMBOL_NOT_FOUND`); otherwise `is_ent` is set through
the found pointer (by unique name) and the `is_entry_exists` flag is
raised. -/
def make_entry (st : AsmState) (name : List Char) : Bool × AsmState :=
  match find_symbol st.symbol_table name with
  | some s =>
    if s.is_ext then (false, st)
    else
      (true, { st with
        symbol_table :=
          st.symbol_table.map fun t =>
            if t.name = name then { t with is_ent := true } else t,
        is_entry_exists := true })
  | none => (false, st)

/-- Models `add_ext_to_list` (symbol_structs.c): append one external-reference
record at the end of the ext table. -/
def add_ext_to_list (st : AsmState) (name : List Char) (address : Nat) : AsmState :=
  { st with ext_table := st.ext_table ++ [(name, address)] }

/-- Models `append_word_to_code` (utils.c): `code[ic++] = word`. -/
def append_word_to_code (st : AsmState) (word : Nat) : AsmState :=
  { st with
    code := fun i => if i = st.ic then word else st.code i
    ic := st.ic + 1 }

/-- Models `append_number_to_data` (first_pass.c): `data[dc++] = (unsigned int)num`
— the raw two's-complement value, no shift, no ARE tag. -/
def append_number_to_data (st : AsmState) (num : Int) : AsmState :=
  { st with
    data := fun i => if i = st.dc then (num.emod (2 ^ 32)).toNat else st.data i
    dc := st.dc + 1 }

/-- Models `append_character_to_data` (first_pass.c): `data[dc++] = (unsigned int)ch`. -/
def append_character_to_data (st : AsmState) (ch : Char) : AsmState :=
  { st with
    data := fun i => if i = st.dc then ch.toNat else st.data i
    dc := st.dc + 1 }

/-! ## First pass (first_pass.c) -/

/-- Models `detect_addr_mode` (first_pass.c): number → immediate, register →
register-direct, valid colon-free symbol → direct, else `NONE_ADDR`. -/
def detect_addr_mode (operand : List Char) : addressing_mode :=
  if is_number operand then .IMMEDIATE_ADDR
  else if is_register operand then .REG_DIRECT_ADDR
  else if is_symbol operand false then .DIRECT_ADDR
  else .NONE_ADDR

/-- Models `is_valid_operand_count` (first_pass.c). -/
def is_valid_operand_count (op_type : opcode) (has_first has_second : Bool) : Bool :=
  match op_type with
  | .MOV_OP | .CMP_OP | .ADD_OP | .SUB_OP | .LEA_OP =>
    has_first && has_second
  | .NOT_OP | .CLR_OP | .INC_OP | .DEC_OP | .JMP_OP | .BNE_OP | .RED_OP
  | .PRN_OP | .JSR_OP =>
    has_first && !has_second
  | .RTS_OP | .STOP_OP =>
    !has_first && !has_second

/-- Models `is_valid_mode_combination` (first_pass.c). -/
def is_valid_mode_combination (op_type : opcode)
    (first_mode second_mode : addressing_mode) : Bool :=
  match op_type with
  | .MOV_OP | .ADD_OP | .SUB_OP =>
    (first_mode == .IMMEDIATE_ADDR || first_mode == .DIRECT_ADDR ||
      first_mode == .REG_DIRECT_ADDR) &&
    (second_mode == .DIRECT_ADDR || second_mode == .REG_DIRECT_ADDR)
  | .LEA_OP =>
    first_mode == .DIRECT_ADDR &&
    (second_mode == .DIRECT_ADDR || second_mode == .REG_DIRECT_ADDR)
  | .NOT_OP | .CLR_OP | .INC_OP | .DEC_OP | .JMP_OP | .BNE_OP | .RED_OP
  | .JSR_OP =>
    first_mode == .DIRECT_ADDR || first_mode == .REG_DIRECT_ADDR
  | .PRN_OP | .CMP_OP | .RTS_OP | .STOP_OP => true

/-- Models `get_additional_word_count` (first_pass.c): one per present operand,
minus one when both operands are register-direct. -/
def get_additional_word_count (has_first has_second : Bool)
    (first_mode second_mode : addressing_mode) : Nat :=
  let count := (if has_first then 1 else 0) + (if has_second then 1 else 0)
  if has_first && has_second && first_mode == .REG_DIRECT_ADDR &&
      second_mode == .REG_DIRECT_ADDR then
    count - 1
  else count

/-- Models `encode_first_op_word` (first_pass.c): pack
`[src_mode][opcode][dest_mode]` (two operands), `[opcode][mode]` (one
operand, the operand in the low/destination field) or `[opcode]` (no
operands), then push the word above the ARE bits with ARE = ABSOLUTE. -/
def encode_first_op_word (op_type : opcode) (has_first has_second : Bool)
    (first_mode second_mode : addressing_mode) : Nat :=
  let word :=
    if has_first && has_second then
      (mode_field first_mode <<< (OPCODE_BITS + ADDR_MODE_BITS)) |||
        (opcode_val op_type <<< ADDR_MODE_BITS) ||| mode_field second_mode
    else if has_first then
      (opcode_val op_type <<< ADDR_MODE_BITS) ||| mode_field first_mode
    else
      opcode_val op_type <<< ADDR_MODE_BITS
  encode_are word .ABSOLUTE

/-- The shared tail of `process_operation` (first_pass.c), from the
`if (!is_empty(line))` extraneous-text check to the encoding: detect the
addressing modes of the present operands, validate, then append the
opcode word and advance IC by the additional-word count. -/
def process_operation_tail (st : AsmState) (op_type : opcode)
    (has_first : Bool) (first_operand : List Char)
    (has_second : Bool) (second_operand : List Char)
    (line : List Char) : Bool × AsmState :=
  if !is_empty line then (false, st)
  else
    let first_mode := if has_first then detect_addr_mode first_operand else .NONE_ADDR
    let second_mode := if has_second then detect_addr_mode second_operand else .NONE_ADDR
    if (has_first && first_mode == .NONE_ADDR) ||
        (has_second && second_mode == .NONE_ADDR) then (false, st)
    else if !is_valid_operand_count op_type has_first has_second then (false, st)
    else if !is_valid_mode_combination op_type first_mode second_mode then (false, st)
    else
      let st₁ := append_word_to_code st
        (encode_first_op_word op_type has_first has_second first_mode second_mode)
      (true, { st₁ with
        ic := st₁.ic + get_additional_word_count has_first has_second first_mode second_mode })

/-- Models `process_operation` (first_pass.c): operand extraction (by comma
count) followed by the shared validation/encoding tail.  Error paths
(`OP_EXTRANEOUS_COMMA`, `OP_MISSING_OPERAND`, `OP_EXTRANEOUS_TEXT`) leave
the state untouched, as in the source. -/
def process_operation (st : AsmState) (op_type : opcode) (line : List Char) :
    Bool × AsmState :=
  let commas_cnt := count_commas line
  if commas_cnt > OP_MAX_NUM_COMMAS then (false, st)
  else if commas_cnt ≠ 0 then
    let first_operand := copy_next_token line [',', '\t', ' ']
    let line₁ := extract_remaining_seq line [',', '\t', ' ']
    if !is_empty first_operand then
      if line₁.headD '\x00' = ',' then
        let line₂ := line₁.drop 1
        let second_operand := copy_next_token line₂ ['\t', ' ']
        let line₃ := extract_remaining_seq line₂ ['\t', ' ']
        if !is_empty second_operand then
          process_operation_tail st op_type true first_operand true second_operand line₃
        else (false, st)
      else (false, st)
    else (false, st)
  else
    let first_operand := copy_next_token line ['\t', ' ']
    let line₁ := extract_remaining_seq line ['\t', ' ']
    if !is_empty first_operand then
      process_operation_tail st op_type true first_operand false [] line₁
    else if op_type ≠ .RTS_OP ∧ op_type ≠ .STOP_OP then (false, st)
    else
      process_operation_tail st op_type false [] false [] line₁

/-- The `while (!is_empty(line))` loop of `process_data_dir`
(first_pass.c).  The recursion argument is explicit fuel: every loop
iteration that continues drops at least one character of the remainder
(`extract_remaining_seq` returns a suffix of its input, and the comma is
then skipped), so the `line.length + 1` fuel supplied by
`process_data_dir` is never exhausted; the fuel-0 branch is unreachable.
When the remainder after the appended parameter is whitespace-only the C
loop condition terminates the loop on its next test, which is the
`(true, st₁)` early exit here. -/
def process_data_dir_loop (st : AsmState) (line : List Char) :
    Nat → Bool × AsmState
  | 0 => (true, st)
  | fuel + 1 =>
    if is_empty line then (true, st)
    else
      let param := copy_next_token line [',', '\t', ' ']
      if !is_number param then (false, st)
      else
        let line₁ := extract_remaining_seq line [',', '\t', ' ']
        if !is_empty line₁ && !(line₁.headD '\x00' = ',') then (false, st)
        else if is_empty (line₁.drop 1) && line₁.headD '\x00' = ',' then (false, st)
        else
          let st₁ := append_number_to_data st (atoi param)
          if is_empty line₁ then (true, st₁)
          else process_data_dir_loop st₁ (line₁.drop 1) fuel

/-- Models `process_data_dir` (first_pass.c). -/
def process_data_dir (st : AsmState) (line : List Char) : Bool × AsmState :=
  process_data_dir_loop st line (line.length + 1)

/-- Models `process_string_dir` (first_pass.c): validate the quoted literal,
append its interior characters, then append a null word. -/
def process_string_dir (st : AsmState) (line : List Char) : Bool × AsmState :=
  let line := trim_end_whitespaces line
  let param := copy_next_token line []
  if !is_string param then (false, st)
  else
    let st₁ := ((param.drop 1).dropLast).foldl append_character_to_data st
    (true, append_character_to_data st₁ '\x00')

/-- Models `process_entry_dir` (first_pass.c): pure validation, no state
change during pass 1. -/
def process_entry_dir (line : List Char) : Bool :=
  let param := copy_next_token line ['\t', ' ']
  if is_empty param then false
  else if !is_symbol param false then false
  else
    let line₁ := extract_remaining_seq line ['\t', ' ']
    !(!is_empty line₁)

/-- Models `process_extern_dir` (first_pass.c): validate the name, reject
extraneous text, then add the symbol as external (`DEFAULT_ADDR`,
`is_ext = true`). -/
def process_extern_dir (st : AsmState) (line : List Char) : Bool × AsmState :=
  let param := copy_next_token line ['\t', ' ']
  if is_empty param then (false, st)
  else if !is_symbol param false then (false, st)
  else
    let line₁ := extract_remaining_seq line ['\t', ' ']
    if !is_empty line₁ then (false, st)
    else
      match add_symbol_to_list st param DEFAULT_ADDR true with
      | none => (false, st)
      | some st₁ => (true, st₁)

/-- Models `process_directive` (first_pass.c). -/
def process_directive (st : AsmState) (dir_type : directive) (line : List Char) :
    Bool × AsmState :=
  if is_empty line then (false, st)
  else
    match dir_type with
    | .DATA => process_data_dir st line
    | .STRING => process_string_dir st line
    | .ENTRY => (process_entry_dir line, st)
    | .EXTERN_DIR => process_extern_dir st line

/-- The `delete_symbol` rollback that every error path of `parse_line`
performs when a provisional label was recorded; also used for the silent
discard of a label before `.entry`/`.extern` (the C code is the same
`delete_symbol` call). -/
def rollback_label (st : AsmState) : Option (List Char) → AsmState
  | some name => { st with symbol_table := delete_symbol st.symbol_table name }
  | none => st

/-- The `current_symbol->type = INSTRUCTION; current_symbol->address = ic`
assignment the opcode branch of `parse_line` performs through the label
pointer. -/
def label_to_instruction (st : AsmState) : Option (List Char) → AsmState
  | some name =>
    { st with symbol_table :=
        set_symbol_type_addr st.symbol_table name .INSTRUCTION st.ic }
  | none => st

/-- The `current_symbol->type = DIRECTIVE; current_symbol->address = dc`
assignment the `.data`/`.string` branch of `parse_line` performs through
the label pointer. -/
def label_to_directive (st : AsmState) : Option (List Char) → AsmState
  | some name =>
    { st with symbol_table :=
        set_symbol_type_addr st.symbol_table name .DIRECTIVE st.dc }
  | none => st

/-- The opcode/directive/undefined dispatch of `parse_line`
(first_pass.c), after the optional label has been handled; `label` is the
recorded provisional label, `tok` the token being classified and `line`
the text from that token onwards. -/
def parse_line_tail (st : AsmState) (label : Option (List Char))
    (tok line : List Char) : Bool × AsmState :=
  match find_operation tok with
  | some op_val =>
    let st₁ := label_to_instruction st label
    let line₁ := extract_remaining_seq line [',', '\t', ' ']
    if line₁.headD '\x00' = ',' then (false, rollback_label st₁ label)
    else if has_consecutive_commas line₁ then (false, rollback_label st₁ label)
    else
      let r := process_operation st₁ op_val line₁
      if r.1 then (true, r.2) else (false, rollback_label r.2 label)
  | none =>
  match find_directive tok with
  | some dir_val =>
    let st₁ :=
      if dir_val = .EXTERN_DIR ∨ dir_val = .ENTRY then rollback_label st label
      else label_to_directive st label
    let label₁ : Option (List Char) :=
      if dir_val = .EXTERN_DIR ∨ dir_val = .ENTRY then none else label
    let line₁ := extract_remaining_seq line [',', '\t', ' ']
    if line₁.headD '\x00' = ',' then (false, rollback_label st₁ label₁)
    else if has_consecutive_commas line₁ then (false, rollback_label st₁ label₁)
    else
      let r := process_directive st₁ dir_val line₁
      if r.1 then (true, r.2) else (false, rollback_label r.2 label₁)
  | none => (false, rollback_label st label)

/-- Models `parse_line` (first_pass.c): optional label handling (provisional
entry with `DEFAULT_ADDR`, rolled back on `SYMBOL_ONLY`), then the
opcode/directive dispatch. -/
def parse_line (st : AsmState) (line : List Char) : Bool × AsmState :=
  let current_token := copy_next_token line [':', '\t', ' ']
  if is_symbol current_token true then
    let name := current_token.dropLast
    match add_symbol_to_list st name DEFAULT_ADDR false with
    | none => (false, st)
    | some st₁ =>
      let line₁ := extract_remaining_seq line [':']
      if is_empty line₁ then
        (false, { st₁ with symbol_table := delete_symbol st₁.symbol_table name })
      else
        let tok := copy_next_token line₁ [',', '\t', ' ']
        parse_line_tail st₁ (some name) tok line₁
  else
    parse_line_tail st none current_token line

/-- The address-finalisation sweep at the end of `first_process`
(first_pass.c): add `MEM_START` to non-external INSTRUCTION symbols, then
`ic + MEM_START` to non-external DIRECTIVE symbols. -/
def first_pass_finalize (table : List symbol) (ic : Nat) : List symbol :=
  update_symbol_addr (update_symbol_addr table MEM_START .INSTRUCTION)
    (ic + MEM_START) .DIRECTIVE

/-! ## Second pass (second_pass.c) -/

/-- Models `SRC_MODE_START_POS` / `SRC_MODE_END_POS` (second_pass.h). -/
def SRC_MODE_START_POS : Nat := 9

/-- See `SRC_MODE_START_POS`. -/
def SRC_MODE_END_POS : Nat := 11

/-- Models `DEST_MODE_START_POS` / `DEST_MODE_END_POS` (second_pass.h). -/
def DEST_MODE_START_POS : Nat := 2

/-- See `DEST_MODE_START_POS`. -/
def DEST_MODE_END_POS : Nat := 4

/-- Models `BITS_IN_REG` (second_pass.h). -/
def BITS_IN_REG : Nat := 5

/-- Models `SKIP_TO_NUM_REG` (second_pass.h). -/
def SKIP_TO_NUM_REG : Nat := 2

/-- Models `determine_operand` (second_pass.c): which operands each opcode takes
(`has_src`, `has_dest`).  The C `switch` for `RTS_OP`/`STOP_OP` falls
through into an empty `default`, so it simply sets both flags false. -/
def determine_operand (op_type : opcode) : Bool × Bool :=
  match op_type with
  | .MOV_OP | .CMP_OP | .ADD_OP | .SUB_OP | .LEA_OP => (true, true)
  | .NOT_OP | .CLR_OP | .INC_OP | .DEC_OP | .JMP_OP | .BNE_OP | .RED_OP
  | .PRN_OP | .JSR_OP => (false, true)
  | .RTS_OP | .STOP_OP => (false, false)

/-- The C cast `(addressing_mode)x` applied to a bit-field value.  Any
value other than 1/3/5 is collapsed to `NONE_ADDR`: every consumer
(`encode_additional_words`, `encode_operand_to_code`) handles all such
values through the same `switch` `default` that handles `NONE_ADDR`, so
the collapse preserves behaviour. -/
def num_to_addressing_mode (n : Nat) : addressing_mode :=
  if n = 1 then .IMMEDIATE_ADDR
  else if n = 3 then .DIRECT_ADDR
  else if n = 5 then .REG_DIRECT_ADDR
  else .NONE_ADDR

/-- Models `encode_reg` (second_pass.c): register number (text after `@r`) in
the destination position, or shifted by `BITS_IN_REG` for a source
register; ARE = ABSOLUTE.  `atoi` is non-negative for every register
token that can reach this function, so `Int.toNat` is exact here. -/
def encode_reg (reg : List Char) (is_dest : Bool) : Nat :=
  let register_num := (atoi (reg.drop SKIP_TO_NUM_REG)).toNat
  encode_are (if is_dest then register_num else register_num <<< BITS_IN_REG)
    .ABSOLUTE

/-- Models `encode_symbol` (second_pass.c): look the symbol up; external symbols
get an external-reference record at `ic + MEM_START` and a word tagged
EXTERNAL, other symbols a word holding their address tagged RELOCATABLE;
a missing symbol is `SYMBOL_NOT_FOUND` and only advances `ic` as a
placeholder. -/
def encode_symbol (st : AsmState) (symbol_name : List Char) : Bool × AsmState :=
  if is_existing_symbol st.symbol_table symbol_name then
    let word := get_symbol_addr st.symbol_table symbol_name
    if is_extern_symbol st.symbol_table symbol_name then
      let st₁ := add_ext_to_list st symbol_name (st.ic + MEM_START)
      (true, append_word_to_code st₁ (encode_are word .EXTERNAL))
    else
      (true, append_word_to_code st (encode_are word .RELOCATABLE))
  else
    (false, { st with ic := st.ic + 1 })

/-- Models `encode_operand_to_code` (second_pass.c). -/
def encode_operand_to_code (st : AsmState) (operand : List Char)
    (addr_mode : addressing_mode) (is_dest : Bool) : Bool × AsmState :=
  match addr_mode with
  | .IMMEDIATE_ADDR =>
    let word := ((atoi operand).emod (2 ^ 32)).toNat
    (true, append_word_to_code st (encode_are word .ABSOLUTE))
  | .DIRECT_ADDR => encode_symbol st operand
  | .REG_DIRECT_ADDR => (true, append_word_to_code st (encode_reg operand is_dest))
  | .NONE_ADDR => (false, st)

/-- Models `encode_additional_words` (second_pass.c): a shared word for two
register operands, otherwise one word per present operand. -/
def encode_additional_words (st : AsmState) (src dest : List Char)
    (has_src has_dest : Bool) (src_mode dest_mode : addressing_mode) :
    Bool × AsmState :=
  if has_src && has_dest && src_mode == .REG_DIRECT_ADDR &&
      dest_mode == .REG_DIRECT_ADDR then
    (true, append_word_to_code st (encode_reg src false ||| encode_reg dest true))
  else if has_dest then
    if has_src then
      let r₁ := encode_operand_to_code st src src_mode false
      let r₂ := encode_operand_to_code r₁.2 dest dest_mode true
      (r₂.1 && r₁.1, r₂.2)
    else
      encode_operand_to_code st dest dest_mode true
  else (true, st)

/-- Models `process_operation_second_pass` (second_pass.c): read the operand
modes back out of the opcode word emitted by pass 1 (`code[ic]`),
re-extract the operand tokens, advance past the opcode word and encode
the additional words. -/
def process_operation_second_pass (st : AsmState) (op_type : opcode)
    (line : List Char) : Bool × AsmState :=
  let has_src := (determine_operand op_type).1
  let has_dest := (determine_operand op_type).2
  let src_addr_mode :=
    if has_src then
      num_to_addressing_mode
        (extract_bits (st.code st.ic) SRC_MODE_START_POS SRC_MODE_END_POS)
    else .NONE_ADDR
  let dest_addr_mode :=
    if has_dest then
      num_to_addressing_mode
        (extract_bits (st.code st.ic) DEST_MODE_START_POS DEST_MODE_END_POS)
    else .NONE_ADDR
  let ops : List Char × List Char :=
    if has_dest then
      if has_src then
        let src := copy_next_token line [',', '\t', ' ']
        let line₁ := extract_remaining_seq line [',', '\t', ' ']
        (src, copy_next_token (line₁.drop 1) ['\t', ' '])
      else ([], copy_next_token line ['\t', ' '])
    else ([], [])
  let st₁ := { st with ic := st.ic + 1 }
  encode_additional_words st₁ ops.1 ops.2 has_src has_dest src_addr_mode
    dest_addr_mode

/-- Models `parse_line_second_pass` (second_pass.c): skip an optional label,
then: an opcode line has its additional words encoded; an `.entry`
directive marks its symbol; every other line (other directives, and
tokens that are neither opcode nor directive) succeeds without touching
the state. -/
def parse_line_second_pass (st : AsmState) (line : List Char) :
    Bool × AsmState :=
  let current_token := copy_next_token line [':', '\t', ' ']
  let after_label : List Char × List Char :=
    if is_symbol current_token true then
      let line₁ := extract_remaining_seq line [':']
      (copy_next_token line₁ [',', '\t', ' '], line₁)
    else (current_token, line)
  match find_operation after_label.1 with
  | some op_val =>
    process_operation_second_pass st op_val
      (extract_remaining_seq after_label.2 [',', '\t', ' '])
  | none =>
    match find_directive after_label.1 with
    | some dir_val =>
      let line₁ := extract_remaining_seq after_label.2 [',', '\t', ' ']
      if dir_val = .ENTRY then
        make_entry st (copy_next_token line₁ ['\t', ' '])
      else (true, st)
    | none => (true, st)

/-! ## Preprocessor (pre_asm.c).  The banned-identifier rules of this
development rename the C `macro` family: `struct mcr` keeps its C tag
name `mcr`, `is_macro` becomes `is_mcr`, `find_macro` becomes
`find_mcr`. -/

/-- Models `struct mcr` (pre_asm.c): a name and the captured body lines
(stored verbatim). -/
structure mcr where
  name : List Char
  lines : List (List Char)
  deriving DecidableEq, Repr

/-- Models `find_macro` (pre_asm.c): first macro with the given name. -/
def find_mcr (mcr_table : List mcr) (name : List Char) : Option mcr :=
  match mcr_table with
  | [] => none
  | m :: rest => if m.name = name then some m else find_mcr rest name

/-- Models `add_line_to_macro` (pre_asm.c) applied through the `current_macro`
pointer, which always designates the most recently appended node of the
macro table; so the line is appended to the body of the last macro. -/
def add_line_to_current_mcr : List mcr → List Char → List mcr
  | [], _ => []
  | [m], l => [{ m with lines := m.lines ++ [l] }]
  | m :: rest, l => m :: add_line_to_current_mcr rest l

/-- The `strtok(_, " ")` token sequence of a string: maximal nonempty
runs separated by spaces (only the space character, as in the source). -/
def strtok_space_tokens (s : List Char) : List (List Char) :=
  (s.splitOn ' ').filter (fun t => t ≠ [])

/-- The per-line loop of `pre_process` (pre_asm.c) over the source lines,
carrying the macro table and the `is_inside_macro` flag.  The returned
list is the sequence of lines written to the expanded stream; the Bool
is the success flag (on failure the source deletes the partial artifact,
so the emitted prefix is discarded and `[]` is returned). -/
def pre_process_loop : List (List Char) → List mcr → Bool →
    Bool × List (List Char)
  | [], _, _ => (true, [])
  | line :: rest, mcr_table, is_inside_mcr =>
    let trimmed_line := trim_whitespaces line
    if ['m', 'c', 'r', 'o'].isPrefixOf trimmed_line then
      match strtok_space_tokens (trimmed_line.drop 4) with
      | [] => (false, [])
      | [mcr_name] =>
        if is_mcr mcr_name then
          pre_process_loop rest (mcr_table ++ [⟨mcr_name, []⟩]) true
        else (false, [])
      | _ => (false, [])
    else if is_inside_mcr &&
        ['e', 'n', 'd', 'm', 'c', 'r', 'o'].isPrefixOf trimmed_line then
      match strtok_space_tokens (trimmed_line.drop 7) with
      | [] => pre_process_loop rest mcr_table false
      | _ => (false, [])
    else if is_inside_mcr then
      pre_process_loop rest (add_line_to_current_mcr mcr_table line) true
    else
      match find_mcr mcr_table trimmed_line with
      | some m =>
        let r := pre_process_loop rest mcr_table false
        (r.1, m.lines ++ r.2)
      | none =>
        let r := pre_process_loop rest mcr_table false
        (r.1, line :: r.2)

/-- Models `pre_process` (pre_asm.c), at the line level: empty macro table,
outside any macro. -/
def pre_process (src_lines : List (List Char)) : Bool × List (List Char) :=
  pre_process_loop src_lines [] false

/-! ## Specification-side definitions used for comparison -/

/-- The number syntax as the specification words it (§4.1): an optional
leading `+`/`-` followed by at least one digit, all remaining characters
digits.  Written from the spec, to be compared with the source's
`is_number`. -/
def spec_is_number (s : List Char) : Bool :=
  let body := match s with
    | c :: r => if c = '+' ∨ c = '-' then r else c :: r
    | [] => []
  !body.isEmpty && body.all Char.isDigit

/-! ## Theorems -/

/-- Claim C8, counterexample.  The claim states `is_number` accepts exactly
the strings made of an optional sign and at least one digit; but the
source's signless branch never checks that a digit is present, so the
empty string is accepted while the spec syntax rejects it. -/
theorem c8_counterexample : is_number [] = true ∧ spec_is_number [] = false := by
  decide

/-- Claim C8, amended.  `is_number` returns TRUE iff the string is empty,
or consists of an optional leading `+`/`-` followed by at least one digit
with all remaining characters digits. -/
theorem c8_is_number_amended (s : List Char) :
    is_number s = true ↔ (s = [] ∨ spec_is_number s = true) := by
  rcases s with _ | ⟨c, rest⟩
  · decide
  · simp only [is_number, spec_is_number]
    by_cases hc : c = '+' ∨ c = '-'
    · rcases rest with _ | ⟨d, r2⟩ <;> simp [hc]
    · simp [hc, List.all_cons]

/-- Claim C7, counterexample.  The claim states a macro name is accepted
only if it starts with an alphabetic character (and contains only
alphanumerics); but `is_macro` performs no character checks, so the name
`1x`, which starts with a digit, is accepted. -/
theorem c7_counterexample :
    is_mcr ("1x".toList) = true ∧ (("1x".toList).headD '\x00').isAlpha = false := by
  decide

/-- Claim C7, amended.  A macro name is accepted by the preprocessor's
validator iff it is at most `MAX_MCR_LEN` (31) characters and is not a
register, operation or directive name; no check is made on the characters
of the name. -/
theorem c7_is_mcr_amended (token : List Char) :
    is_mcr token = true ↔
      (token.length ≤ MAX_MCR_LEN ∧ is_register token = false ∧
        find_operation token = none ∧ find_directive token = none) := by
  simp only [is_mcr]
  split_ifs with h1 h2 h3 h4 <;>
    simp_all [Option.isSome_iff_exists, ← Option.ne_none_iff_exists']

/-- Claim C5, counterexample.  The claim states every `.data` word is the
operand's value shifted left by 2 and ORed with ARE = ABSOLUTE; but
`append_number_to_data` stores the raw `(unsigned int)` value with no
shift and no ARE tag: appending 7 stores the word 7, not 28. -/
theorem c5_counterexample :
    (append_number_to_data initState 7).data 0 = 7 ∧
      (7 <<< 2) ||| are_val are.ABSOLUTE = 28 ∧
      ¬ (append_number_to_data initState 7).data 0 =
          (7 <<< 2) ||| are_val are.ABSOLUTE := by
  decide

/-- Claim C5, amended.  `.data` numbers and `.string` characters
(including the trailing null) are stored in the data segment as raw
values: a number is stored as its `unsigned int` conversion (the value
modulo `2 ^ 32`, so 4294967239 for −57), a character as its code, the
terminator as 0; no shift by 2 and no ARE field is applied. -/
theorem c5_data_words_amended :
    (∀ (st : AsmState) (num : Int),
      (append_number_to_data st num).data st.dc = (num.emod (2 ^ 32)).toNat ∧
        (append_number_to_data st num).dc = st.dc + 1) ∧
    (∀ (st : AsmState) (ch : Char),
      (append_character_to_data st ch).data st.dc = ch.toNat ∧
        (append_character_to_data st ch).dc = st.dc + 1) ∧
    ((process_data_dir initState ("7, -57, +17".toList)).2.data 0 = 7 ∧
      (process_data_dir initState ("7, -57, +17".toList)).2.data 1 = 2 ^ 32 - 57 ∧
      (process_data_dir initState ("7, -57, +17".toList)).2.data 2 = 17 ∧
      (process_string_dir initState ("\"ab\"".toList)).2.data 0 = 97 ∧
      (process_string_dir initState ("\"ab\"".toList)).2.data 1 = 98 ∧
      (process_string_dir initState ("\"ab\"".toList)).2.data 2 = 0) := by
  refine ⟨fun st num => ⟨?_, rfl⟩, fun st ch => ⟨?_, rfl⟩, ?_⟩
  · simp [append_number_to_data]
  · simp [append_character_to_data]
  · decide

/-- Claim C1.  The opcode word built by pass 1 is
`(src_mode <<< 9) ||| (opcode <<< 5) ||| (dest_mode <<< 2)`, where for a
two-operand instruction the source/destination fields hold the two
operand modes, for a one-operand instruction the single operand's mode
occupies the destination field with a zero source field, and for a
zero-operand instruction both fields are zero; the ARE bits (the low two
bits) are always ABSOLUTE (0). -/
theorem c1_opcode_word_layout (op_type : opcode) (has_first has_second : Bool)
    (first_mode second_mode : addressing_mode) :
    encode_first_op_word op_type has_first has_second first_mode second_mode =
      ((if has_first && has_second then mode_field first_mode else 0) <<< 9) |||
        (opcode_val op_type <<< 5) |||
        ((if has_first && has_second then mode_field second_mode
          else if has_first then mode_field first_mode else 0) <<< 2) ∧
    encode_first_op_word op_type has_first has_second first_mode second_mode
        % 4 = are_val are.ABSOLUTE := by
  cases op_type <;> cases has_first <;> cases has_second <;>
    cases first_mode <;> cases second_mode <;> exact ⟨rfl, rfl⟩

/-- How the finalisation sweep acts on the head of the table: external
symbols are untouched, non-external INSTRUCTION symbols gain `MEM_START`,
non-external DIRECTIVE symbols gain `ic + MEM_START`. -/
theorem first_pass_finalize_cons (s : symbol) (rest : List symbol) (ic : Nat) :
    first_pass_finalize (s :: rest) ic =
      (if s.is_ext then s
       else if s.type = .INSTRUCTION then
        { s with address := (s.address + MEM_START) % 2 ^ 32 }
       else { s with address := (s.address + (ic + MEM_START)) % 2 ^ 32 }) ::
        first_pass_finalize rest ic := by
  rcases s with ⟨name, address, ty, ext, ent⟩
  rcases ext with _ | _ <;> rcases ty with _ | _ <;>
    simp [first_pass_finalize, update_symbol_addr]

/-- Claim C3.  The end-of-pass-1 sweep adds `MEM_START` (100) to every
non-external INSTRUCTION symbol, adds `final_IC + 100` to every
non-external DIRECTIVE symbol, and leaves external symbols untouched;
when the provisional addresses are the IC/DC values at definition (below
`ic` resp. `dc`) every non-external finalised address lies in
`[100, 100 + ic + dc)`.  (The `h32` bound discharges the `unsigned int`
wrap-around, which cannot occur for any real segment size.) -/
theorem c3_finalize_addresses (table : List symbol) (ic dc : Nat)
    (h32 : MEM_START + ic + dc ≤ 2 ^ 32)
    (hinst : ∀ s ∈ table, s.is_ext = false → s.type = .INSTRUCTION →
      s.address < ic)
    (hdir : ∀ s ∈ table, s.is_ext = false → s.type = .DIRECTIVE →
      s.address < dc) :
    List.Forall₂ (fun s s' : symbol =>
      (s.is_ext = true → s' = s) ∧
      (s.is_ext = false → s.type = .INSTRUCTION →
        s'.address = s.address + MEM_START) ∧
      (s.is_ext = false → s.type = .DIRECTIVE →
        s'.address = s.address + ic + MEM_START) ∧
      (s.is_ext = false →
        MEM_START ≤ s'.address ∧ s'.address < MEM_START + ic + dc))
      table (first_pass_finalize table ic) := by
  have h32' : 100 + ic + dc ≤ 2 ^ 32 := by simpa [MEM_START] using h32
  induction table with
  | nil => simp [first_pass_finalize, update_symbol_addr]
  | cons s rest ih =>
    rw [first_pass_finalize_cons]
    constructor
    · rcases s with ⟨name, address, ty, ext, ent⟩
      rcases ext with _ | _
      · rcases ty with _ | _
        · have ha : address < ic := hinst _ (List.mem_cons_self _ _) rfl rfl
          have hlt : address + MEM_START < 2 ^ 32 := by
            simp only [MEM_START]; omega
          simp [MEM_START, Nat.mod_eq_of_lt hlt]
          omega
        · have ha : address < dc := hdir _ (List.mem_cons_self _ _) rfl rfl
          have hlt : address + (ic + MEM_START) < 2 ^ 32 := by
            simp only [MEM_START]; omega
          simp [MEM_START, Nat.mod_eq_of_lt hlt]
          omega
      · simp
    · exact ih (fun t ht => hinst t (by simp [ht]))
        (fun t ht => hdir t (by simp [ht]))

/-- Claim C3, witness: the sweep applied to a table holding one
instruction symbol at provisional address 0, one external symbol and one
directive symbol at provisional address 1, with `ic = 2`, `dc = 3`. -/
theorem c3_finalize_addresses_witness :
    List.Forall₂ (fun s s' : symbol =>
      (s.is_ext = true → s' = s) ∧
      (s.is_ext = false → s.type = .INSTRUCTION →
        s'.address = s.address + MEM_START) ∧
      (s.is_ext = false → s.type = .DIRECTIVE →
        s'.address = s.address + 2 + MEM_START) ∧
      (s.is_ext = false →
        MEM_START ≤ s'.address ∧ s'.address < MEM_START + 2 + 3))
      [⟨"M".toList, 0, .INSTRUCTION, false, false⟩,
       ⟨"E".toList, 0, .DIRECTIVE, true, false⟩,
       ⟨"D".toList, 1, .DIRECTIVE, false, false⟩]
      (first_pass_finalize
        [⟨"M".toList, 0, .INSTRUCTION, false, false⟩,
         ⟨"E".toList, 0, .DIRECTIVE, true, false⟩,
         ⟨"D".toList, 1, .DIRECTIVE, false, false⟩] 2) :=
  c3_finalize_addresses _ 2 3 (by decide) (by decide) (by decide)

/-- Claim C6.  Resolving a direct-mode operand whose symbol exists: if the
symbol is external (address 0 by the table convention) the appended word
equals 1 (value 0, ARE = EXTERNAL) and exactly one record
`(name, ic + 100)` is appended to the external-reference table; otherwise
the appended word is the symbol's address shifted left by 2 with
ARE = RELOCATABLE and the external-reference table is unchanged.  In both
cases the call succeeds, the word lands at index `ic` and `ic` advances
by one. -/
theorem c6_encode_symbol (st : AsmState) (name : List Char) (s : symbol)
    (hfind : find_symbol st.symbol_table name = some s) :
    (s.is_ext = true → s.address = 0 →
      (encode_symbol st name).1 = true ∧
      (encode_symbol st name).2.ext_table =
        st.ext_table ++ [(name, st.ic + MEM_START)] ∧
      (encode_symbol st name).2.code st.ic = 1 ∧
      (encode_symbol st name).2.ic = st.ic + 1) ∧
    (s.is_ext = false → s.address < 2 ^ 30 →
      (encode_symbol st name).1 = true ∧
      (encode_symbol st name).2.ext_table = st.ext_table ∧
      (encode_symbol st name).2.code st.ic =
        (s.address <<< 2) ||| are_val are.RELOCATABLE ∧
      (encode_symbol st name).2.ic = st.ic + 1) := by
  have hex : is_existing_symbol st.symbol_table name = true := by
    simp [is_existing_symbol, hfind]
  have hget : get_symbol_addr st.symbol_table name = s.address := by
    simp [get_symbol_addr, hfind]
  have hextq : is_extern_symbol st.symbol_table name = s.is_ext := by
    simp [is_extern_symbol, hfind]
  constructor
  · intro he ha
    simp only [encode_symbol, hex, if_true, hget, hextq, he, ha]
    refine ⟨by trivial, by trivial, ?_, by trivial⟩
    simp [append_word_to_code, add_ext_to_list, encode_are, ARE_BITS, are_val,
      Nat.zero_shiftLeft]
  · intro he hlt
    have hmod : s.address <<< ARE_BITS % 2 ^ 32 = s.address <<< 2 := by
      simp only [ARE_BITS]
      have hsm : s.address <<< 2 < 2 ^ 32 := by
        rw [Nat.shiftLeft_eq]
        norm_num at hlt ⊢
        omega
      exact Nat.mod_eq_of_lt hsm
    simp only [encode_symbol, hex, if_true, hget, hextq, he, Bool.false_eq_true,
      if_false]
    refine ⟨by trivial, by trivial, ?_, by trivial⟩
    simp only [append_word_to_code, encode_are, hmod]
    simp

/-- Claim C6, witness: a table holding the external symbol `E` (address 0)
and the non-external symbol `L` at address 5. -/
theorem c6_encode_symbol_witness :
    ((encode_symbol { initState with
        symbol_table := [⟨"E".toList, 0, .DIRECTIVE, true, false⟩] }
        ("E".toList)).2.ext_table = [("E".toList, 100)] ∧
      (encode_symbol { initState with
        symbol_table := [⟨"E".toList, 0, .DIRECTIVE, true, false⟩] }
        ("E".toList)).2.code 0 = 1) ∧
    ((encode_symbol { initState with
        symbol_table := [⟨"L".toList, 5, .INSTRUCTION, false, false⟩] }
        ("L".toList)).2.ext_table = [] ∧
      (encode_symbol { initState with
        symbol_table := [⟨"L".toList, 5, .INSTRUCTION, false, false⟩] }
        ("L".toList)).2.code 0 = (5 <<< 2) ||| are_val are.RELOCATABLE) := by
  constructor
  · have h := (c6_encode_symbol { initState with
      symbol_table := [⟨"E".toList, 0, .DIRECTIVE, true, false⟩] }
      ("E".toList) ⟨"E".toList, 0, .DIRECTIVE, true, false⟩ rfl).1 rfl rfl
    exact ⟨h.2.1, h.2.2.1⟩
  · have h := (c6_encode_symbol { initState with
      symbol_table := [⟨"L".toList, 5, .INSTRUCTION, false, false⟩] }
      ("L".toList) ⟨"L".toList, 5, .INSTRUCTION, false, false⟩ rfl).2 rfl
      (by norm_num)
    exact ⟨h.2.1, h.2.2.1⟩

/-- Claim C9.  On an input stream with no `mcro` lines the preprocessor
succeeds and emits every line verbatim, in order, exactly once: the
output equals the input. -/
theorem c9_pre_process_identity (src_lines : List (List Char))
    (h : ∀ l ∈ src_lines,
      (['m', 'c', 'r', 'o'].isPrefixOf (trim_whitespaces l)) = false) :
    pre_process src_lines = (true, src_lines) := by
  unfold pre_process
  induction src_lines with
  | nil => rfl
  | cons line rest ih =>
    have hline := h line (List.mem_cons_self _ _)
    have hrest := ih (fun l hl => h l (List.mem_cons.mpr (Or.inr hl)))
    simp only [pre_process_loop, hline, Bool.false_eq_true, if_false,
      Bool.false_and, find_mcr, hrest]

/-- Claim C9, witness: a two-line stream without macro definitions. -/
theorem c9_pre_process_identity_witness :
    pre_process ["hello".toList, " mov @r1, @r2".toList] =
      (true, ["hello".toList, " mov @r1, @r2".toList]) :=
  c9_pre_process_identity _ (by decide)

/-- Claim C10.  In pass 2, a non-ignored line whose first token (after
discarding an optional label) is neither an opcode nor a directive is
processed successfully and leaves the whole state — code segment, IC,
symbol table, external-reference table — untouched. -/
theorem c10_second_pass_unknown_token (st : AsmState) (line : List Char)
    (h :
      (let current_token := copy_next_token line [':', '\t', ' ']
       let tok :=
         if is_symbol current_token true then
           copy_next_token (extract_remaining_seq line [':']) [',', '\t', ' ']
         else current_token
       find_operation tok = none ∧ find_directive tok = none)) :
    parse_line_second_pass st line = (true, st) := by
  simp only at h
  unfold parse_line_second_pass
  by_cases hsym : is_symbol (copy_next_token line [':', '\t', ' ']) true = true
  · simp only [hsym, if_true] at h ⊢
    simp only [h.1, h.2]
  · simp only [hsym] at h
    simp only [Bool.not_eq_true] at hsym
    simp only [hsym, Bool.false_eq_true, if_false] at h ⊢
    simp only [h.1, h.2]

/-- Claim C10, witness: the line `foo bar`, whose first token is neither
an opcode nor a directive. -/
theorem c10_second_pass_unknown_token_witness :
    parse_line_second_pass initState ("foo bar".toList) = (true, initState) :=
  c10_second_pass_unknown_token _ _ (by decide)

/-- Every error path of `process_operation_tail` returns the state
untouched. -/
theorem process_operation_tail_fail (st st' : AsmState) (op_type : opcode)
    (has_first has_second : Bool) (first_operand second_operand line : List Char)
    (h : process_operation_tail st op_type has_first first_operand has_second
      second_operand line = (false, st')) :
    st' = st := by
  simp only [process_operation_tail] at h
  split_ifs at h <;> simp_all

/-- The success path of `process_operation_tail` for a two-operand call:
both detected modes are valid, validation passed, the opcode word lands
at index `ic`, and `ic` advances by one plus the additional-word count.
Only `ic` and `code` change. -/
theorem process_operation_tail_success_two (st st' : AsmState)
    (op_type : opcode) (first_operand second_operand line : List Char)
    (h : process_operation_tail st op_type true first_operand true
      second_operand line = (true, st')) :
    detect_addr_mode first_operand ≠ .NONE_ADDR ∧
    detect_addr_mode second_operand ≠ .NONE_ADDR ∧
    is_valid_operand_count op_type true true = true ∧
    st'.ic = st.ic + 1 + get_additional_word_count true true
      (detect_addr_mode first_operand) (detect_addr_mode second_operand) ∧
    st'.code st.ic = encode_first_op_word op_type true true
      (detect_addr_mode first_operand) (detect_addr_mode second_operand) ∧
    st'.symbol_table = st.symbol_table ∧ st'.data = st.data ∧
    st'.dc = st.dc ∧ st'.ext_table = st.ext_table := by
  simp only [process_operation_tail, reduceIte, Bool.true_and] at h
  split_ifs at h with hA hB hC hD
  · simp at h
  · simp at h
  · simp at h
  · simp at h
  · injection h with h1 h2
    subst h2
    simp only [Bool.or_eq_true, beq_iff_eq, not_or] at hB
    refine ⟨hB.1, hB.2, by simpa using hC, by simp [append_word_to_code],
      by simp [append_word_to_code], rfl, rfl, rfl, rfl⟩

/-- The success path of `process_operation_tail` for a one-operand call:
the detected mode is valid, validation passed, the opcode word lands at
index `ic`, and `ic` advances by one plus the additional-word count. -/
theorem process_operation_tail_success_one (st st' : AsmState)
    (op_type : opcode) (first_operand second_operand line : List Char)
    (h : process_operation_tail st op_type true first_operand false
      second_operand line = (true, st')) :
    detect_addr_mode first_operand ≠ .NONE_ADDR ∧
    is_valid_operand_count op_type true false = true ∧
    st'.ic = st.ic + 1 + get_additional_word_count true false
      (detect_addr_mode first_operand) .NONE_ADDR ∧
    st'.code st.ic = encode_first_op_word op_type true false
      (detect_addr_mode first_operand) .NONE_ADDR ∧
    st'.symbol_table = st.symbol_table ∧ st'.data = st.data ∧
    st'.dc = st.dc ∧ st'.ext_table = st.ext_table := by
  simp only [process_operation_tail] at h
  simp only [Bool.false_eq_true, reduceIte, Bool.true_and, Bool.false_and,
    Bool.or_false] at h
  split_ifs at h with hA hB hC hD
  · simp at h
  · simp at h
  · simp at h
  · simp at h
  · injection h with h1 h2
    subst h2
    simp only [beq_iff_eq] at hB
    refine ⟨hB, by simpa using hC, by simp [append_word_to_code],
      by simp [append_word_to_code], rfl, rfl, rfl, rfl⟩

/-- The success path of `process_operation_tail` for a zero-operand call:
validation passed, the opcode word lands at index `ic`, and `ic` advances
by one (the additional-word count is zero). -/
theorem process_operation_tail_success_zero (st st' : AsmState)
    (op_type : opcode) (first_operand second_operand line : List Char)
    (h : process_operation_tail st op_type false first_operand false
      second_operand line = (true, st')) :
    is_valid_operand_count op_type false false = true ∧
    st'.ic = st.ic + 1 + get_additional_word_count false false
      .NONE_ADDR .NONE_ADDR ∧
    st'.code st.ic = encode_first_op_word op_type false false
      .NONE_ADDR .NONE_ADDR ∧
    st'.symbol_table = st.symbol_table ∧ st'.data = st.data ∧
    st'.dc = st.dc ∧ st'.ext_table = st.ext_table := by
  simp only [process_operation_tail] at h
  simp only [Bool.false_eq_true, reduceIte, Bool.false_and,
    Bool.or_self] at h
  split_ifs at h with hA hB hC
  · simp at h
  · simp at h
  · simp at h
  · injection h with h1 h2
    subst h2
    refine ⟨by simpa using hB, by simp [append_word_to_code],
      by simp [append_word_to_code], rfl, rfl, rfl, rfl⟩

/-- Every error path of `process_operation` returns the state untouched:
all validation happens before the opcode word is appended or IC moves. -/
theorem process_operation_fail (st st' : AsmState) (op_type : opcode)
    (line : List Char)
    (h : process_operation st op_type line = (false, st')) :
    st' = st := by
  simp only [process_operation] at h
  split_ifs at h <;>
    first
      | (exact process_operation_tail_fail _ _ _ _ _ _ _ _ h)
      | (injection h with h1 h2; exact h2.symm)

/-- The spec's per-operand word count read off the fields of a
two-operand opcode word agrees with `get_additional_word_count`. -/
theorem spec_count_two (op_type : opcode) (fm sm : addressing_mode)
    (h1 : fm ≠ .NONE_ADDR) (h2 : sm ≠ .NONE_ADDR) :
    ((if extract_bits (encode_first_op_word op_type true true fm sm)
          SRC_MODE_START_POS SRC_MODE_END_POS ≠ 0 then 1 else 0) +
     (if extract_bits (encode_first_op_word op_type true true fm sm)
          DEST_MODE_START_POS DEST_MODE_END_POS ≠ 0 then 1 else 0) -
     (if extract_bits (encode_first_op_word op_type true true fm sm)
          SRC_MODE_START_POS SRC_MODE_END_POS = 5 ∧
        extract_bits (encode_first_op_word op_type true true fm sm)
          DEST_MODE_START_POS DEST_MODE_END_POS = 5 then 1 else 0)) =
      get_additional_word_count true true fm sm := by
  revert h1 h2
  cases op_type <;> cases fm <;> cases sm <;> decide

/-- As `spec_count_two`, for a one-operand opcode word (the operand sits
in the destination field, the source field is zero). -/
theorem spec_count_one (op_type : opcode) (fm : addressing_mode)
    (h1 : fm ≠ .NONE_ADDR) :
    ((if extract_bits (encode_first_op_word op_type true false fm .NONE_ADDR)
          SRC_MODE_START_POS SRC_MODE_END_POS ≠ 0 then 1 else 0) +
     (if extract_bits (encode_first_op_word op_type true false fm .NONE_ADDR)
          DEST_MODE_START_POS DEST_MODE_END_POS ≠ 0 then 1 else 0) -
     (if extract_bits (encode_first_op_word op_type true false fm .NONE_ADDR)
          SRC_MODE_START_POS SRC_MODE_END_POS = 5 ∧
        extract_bits (encode_first_op_word op_type true false fm .NONE_ADDR)
          DEST_MODE_START_POS DEST_MODE_END_POS = 5 then 1 else 0)) =
      get_additional_word_count true false fm .NONE_ADDR := by
  revert h1
  cases op_type <;> cases fm <;> decide

/-- As `spec_count_two`, for a zero-operand opcode word (both mode fields
are zero). -/
theorem spec_count_zero (op_type : opcode) :
    ((if extract_bits (encode_first_op_word op_type false false
          .NONE_ADDR .NONE_ADDR) SRC_MODE_START_POS SRC_MODE_END_POS ≠ 0
        then 1 else 0) +
     (if extract_bits (encode_first_op_word op_type false false
          .NONE_ADDR .NONE_ADDR) DEST_MODE_START_POS DEST_MODE_END_POS ≠ 0
        then 1 else 0) -
     (if extract_bits (encode_first_op_word op_type false false
          .NONE_ADDR .NONE_ADDR) SRC_MODE_START_POS SRC_MODE_END_POS = 5 ∧
        extract_bits (encode_first_op_word op_type false false
          .NONE_ADDR .NONE_ADDR) DEST_MODE_START_POS DEST_MODE_END_POS = 5
        then 1 else 0)) =
      get_additional_word_count false false .NONE_ADDR .NONE_ADDR := by
  cases op_type <;> decide

/-- Claim C2.  (1) `get_additional_word_count` is one word per present
operand, minus one shared word when a two-operand instruction has two
register-direct operands.  (2) For every opcode line accepted by pass 1,
IC advances by exactly 1 (the opcode word) plus that count, read back
from the source/destination mode fields of the emitted opcode word (a
field is nonzero exactly when the operand is present, and holds 5 exactly
for a register-direct operand). -/
theorem c2_ic_advance :
    (∀ (has_first has_second : Bool) (fm sm : addressing_mode),
      get_additional_word_count has_first has_second fm sm =
        (if has_first then 1 else 0) + (if has_second then 1 else 0) -
          (if has_first = true ∧ has_second = true ∧
              fm = .REG_DIRECT_ADDR ∧ sm = .REG_DIRECT_ADDR then 1 else 0)) ∧
    (∀ (st : AsmState) (op_type : opcode) (line : List Char) (st' : AsmState),
      process_operation st op_type line = (true, st') →
      st'.ic = st.ic + 1 +
        ((if extract_bits (st'.code st.ic) SRC_MODE_START_POS
              SRC_MODE_END_POS ≠ 0 then 1 else 0) +
         (if extract_bits (st'.code st.ic) DEST_MODE_START_POS
              DEST_MODE_END_POS ≠ 0 then 1 else 0) -
         (if extract_bits (st'.code st.ic) SRC_MODE_START_POS
              SRC_MODE_END_POS = 5 ∧
            extract_bits (st'.code st.ic) DEST_MODE_START_POS
              DEST_MODE_END_POS = 5 then 1 else 0))) := by
  constructor
  · intro has_first has_second fm sm
    cases has_first <;> cases has_second <;> cases fm <;> cases sm <;> decide
  · intro st op_type line st' h
    simp only [process_operation] at h
    split_ifs at h
    · simp at h
    · obtain ⟨hfm, hsm, _, hic, hcode, _⟩ :=
        process_operation_tail_success_two _ _ _ _ _ _ h
      rw [hcode, hic, spec_count_two op_type _ _ hfm hsm]
    · simp at h
    · simp at h
    · simp at h
    · obtain ⟨hfm, _, hic, hcode, _⟩ :=
        process_operation_tail_success_one _ _ _ _ _ _ h
      rw [hcode, hic, spec_count_one op_type _ hfm]
    · simp at h
    · obtain ⟨_, hic, hcode, _⟩ :=
        process_operation_tail_success_zero _ _ _ _ _ _ h
      rw [hcode, hic, spec_count_zero op_type]

/-- Claim C2, witness: `mov @r1, @r2` advances IC by 2 (1 opcode word plus
one shared register word); the fields of the emitted word are both 5. -/
theorem c2_ic_advance_witness :
    (process_operation initState .MOV_OP ("@r1, @r2".toList)).2.ic =
      initState.ic + 1 +
        ((if extract_bits ((process_operation initState .MOV_OP
              ("@r1, @r2".toList)).2.code initState.ic) SRC_MODE_START_POS
              SRC_MODE_END_POS ≠ 0 then 1 else 0) +
         (if extract_bits ((process_operation initState .MOV_OP
              ("@r1, @r2".toList)).2.code initState.ic) DEST_MODE_START_POS
              DEST_MODE_END_POS ≠ 0 then 1 else 0) -
         (if extract_bits ((process_operation initState .MOV_OP
              ("@r1, @r2".toList)).2.code initState.ic) SRC_MODE_START_POS
              SRC_MODE_END_POS = 5 ∧
            extract_bits ((process_operation initState .MOV_OP
              ("@r1, @r2".toList)).2.code initState.ic) DEST_MODE_START_POS
              DEST_MODE_END_POS = 5 then 1 else 0)) :=
  c2_ic_advance.2 initState .MOV_OP ("@r1, @r2".toList) _ rfl

/-- Models `find_symbol` finds nothing iff no symbol in the table has the
name. -/
theorem find_symbol_eq_none_iff (table : List symbol) (name : List Char) :
    find_symbol table name = none ↔ ∀ t ∈ table, t.name ≠ name := by
  induction table with
  | nil => simp [find_symbol]
  | cons s rest ih =>
    simp only [find_symbol]
    split_ifs with hs
    · simp [hs]
    · simp [ih, hs]

/-- Deleting a freshly appended symbol restores the original table
(`delete_symbol` removes the first match, and no earlier entry
matches). -/
theorem delete_append_fresh (base : List symbol) (sym : symbol)
    (name : List Char) (hname : sym.name = name)
    (hfresh : ∀ t ∈ base, t.name ≠ name) :
    delete_symbol (base ++ [sym]) name = base := by
  induction base with
  | nil => simp [delete_symbol, hname]
  | cons s rest ih =>
    have hs : s.name ≠ name := hfresh s (List.mem_cons_self _ _)
    simp only [List.cons_append, delete_symbol, hs, if_false]
    exact congrArg (List.cons s)
      (ih (fun t ht => hfresh t (List.mem_cons.mpr (Or.inr ht))))

/-- Setting the type/address through the label pointer touches only the
freshly appended symbol: earlier entries have different names. -/
theorem set_append_fresh (base : List symbol) (sym : symbol)
    (name : List Char) (t : statement_type) (a : Nat)
    (hname : sym.name = name)
    (hfresh : ∀ t' ∈ base, t'.name ≠ name) :
    set_symbol_type_addr (base ++ [sym]) name t a =
      base ++ [{ sym with type := t, address := a }] := by
  have hbase : (base.map fun s =>
      if s.name = name then { s with type := t, address := a } else s) = base := by
    conv_rhs => rw [← List.map_id base]
    exact List.map_congr_left (fun x hx => by simp [hfresh x hx])
  simp [set_symbol_type_addr, hbase, hname]

/-- The `.data` loop touches only the data segment and DC: the code
segment, IC, symbol table and ext table pass through untouched, for any
fuel and whether or not the loop fails. -/
theorem process_data_dir_loop_inv (fuel : Nat) :
    ∀ (st : AsmState) (line : List Char),
      (process_data_dir_loop st line fuel).2.code = st.code ∧
      (process_data_dir_loop st line fuel).2.ic = st.ic ∧
      (process_data_dir_loop st line fuel).2.symbol_table = st.symbol_table ∧
      (process_data_dir_loop st line fuel).2.ext_table = st.ext_table := by
  induction fuel with
  | zero => intro st line; exact ⟨rfl, rfl, rfl, rfl⟩
  | succ n ih =>
    intro st line
    simp only [process_data_dir_loop]
    split_ifs with h1 h2 h3 h4 h5
    · exact ⟨rfl, rfl, rfl, rfl⟩
    · exact ⟨rfl, rfl, rfl, rfl⟩
    · exact ⟨rfl, rfl, rfl, rfl⟩
    · exact ⟨rfl, rfl, rfl, rfl⟩
    · exact ⟨rfl, rfl, rfl, rfl⟩
    · obtain ⟨hc, hi, hs, he⟩ := ih
        (append_number_to_data st
          (atoi (copy_next_token line [',', '\t', ' '])))
        ((extract_remaining_seq line [',', '\t', ' ']).drop 1)
      exact ⟨by rw [hc]; rfl, by rw [hi]; rfl, by rw [hs]; rfl,
        by rw [he]; rfl⟩

/-- A failing `.string` directive leaves the state untouched (the literal
is validated before anything is appended). -/
theorem process_string_dir_fail (st st' : AsmState) (line : List Char)
    (h : process_string_dir st line = (false, st')) : st' = st := by
  simp only [process_string_dir] at h
  split_ifs at h <;> simp_all

/-- A failing `.extern` directive leaves the state untouched (validation
and the duplicate check both precede the insertion). -/
theorem process_extern_dir_fail (st st' : AsmState) (line : List Char)
    (h : process_extern_dir st line = (false, st')) : st' = st := by
  simp only [process_extern_dir] at h
  split_ifs at h <;>
    first
      | (injection h with h1 h2; exact h2.symm)
      | (rcases hadd : add_symbol_to_list st
          (copy_next_token line ['\t', ' ']) DEFAULT_ADDR true with _ | st₁ <;>
          rw [hadd] at h <;> simp_all)

/-- A failing directive leaves the code segment, IC and symbol table
untouched (a failing `.data` may have appended data words already). -/
theorem process_directive_fail (st st' : AsmState) (dir_type : directive)
    (line : List Char)
    (h : process_directive st dir_type line = (false, st')) :
    st'.code = st.code ∧ st'.ic = st.ic ∧
      st'.symbol_table = st.symbol_table := by
  simp only [process_directive] at h
  split_ifs at h with h1
  · injection h with h1 h2; rw [← h2]; exact ⟨rfl, rfl, rfl⟩
  · cases dir_type with
    | DATA =>
      obtain ⟨hc, hi, hs, _⟩ :=
        process_data_dir_loop_inv (line.length + 1) st line
      have h2 : (process_data_dir st line).2 = st' := congrArg Prod.snd h
      rw [← h2]
      exact ⟨hc, hi, hs⟩
    | STRING =>
      rw [process_string_dir_fail st st' line h]
      exact ⟨rfl, rfl, rfl⟩
    | ENTRY =>
      injection h with h1 h2; rw [← h2]; exact ⟨rfl, rfl, rfl⟩
    | EXTERN_DIR =>
      rw [process_extern_dir_fail st st' line h]
      exact ⟨rfl, rfl, rfl⟩


/-- A failing dispatch with no recorded label leaves the code segment,
IC and symbol table untouched. -/
theorem parse_line_tail_fail_none (st st' : AsmState) (tok line : List Char)
    (h : parse_line_tail st none tok line = (false, st')) :
    st'.code = st.code ∧ st'.ic = st.ic ∧
      st'.symbol_table = st.symbol_table := by
  simp only [parse_line_tail, rollback_label, label_to_instruction,
    label_to_directive] at h
  cases hop : find_operation tok with
  | some op_val =>
    rw [hop] at h
    simp only at h
    by_cases h1 : (extract_remaining_seq line [',', '\t', ' ']).headD '\x00' = ','
    · rw [if_pos h1] at h
      injection h with _ h2; rw [← h2]; exact ⟨rfl, rfl, rfl⟩
    · rw [if_neg h1] at h
      by_cases h2 : has_consecutive_commas
          (extract_remaining_seq line [',', '\t', ' ']) = true
      · rw [if_pos h2] at h
        injection h with _ h2'; rw [← h2']; exact ⟨rfl, rfl, rfl⟩
      · rw [if_neg h2] at h
        rcases hpo : process_operation st op_val
          (extract_remaining_seq line [',', '\t', ' ']) with ⟨b, st₂⟩
        rw [hpo] at h
        cases b with
        | true => simp at h
        | false =>
          rw [if_neg (by simp)] at h
          injection h with _ h2'
          have hst := process_operation_fail st st₂ op_val _ hpo
          subst hst
          rw [← h2']
          exact ⟨rfl, rfl, rfl⟩
  | none =>
    rw [hop] at h
    cases hdir : find_directive tok with
    | some dir_val =>
      rw [hdir] at h
      simp only [ite_self] at h
      by_cases h1 : (extract_remaining_seq line [',', '\t', ' ']).headD '\x00' = ','
      · rw [if_pos h1] at h
        injection h with _ h2
        rw [← h2]
        exact ⟨rfl, rfl, rfl⟩
      · rw [if_neg h1] at h
        by_cases h2 : has_consecutive_commas
            (extract_remaining_seq line [',', '\t', ' ']) = true
        · rw [if_pos h2] at h
          injection h with _ h2'
          rw [← h2']
          exact ⟨rfl, rfl, rfl⟩
        · rw [if_neg h2] at h
          rcases hpd : process_directive st dir_val
            (extract_remaining_seq line [',', '\t', ' ']) with ⟨b, st₂⟩
          rw [hpd] at h
          cases b with
          | true => simp at h
          | false =>
            rw [if_neg (by simp)] at h
            injection h with _ h2'
            rw [← h2']
            exact process_directive_fail st st₂ dir_val _ hpd
    | none =>
      rw [hdir] at h
      injection h with _ h2
      rw [← h2]
      exact ⟨rfl, rfl, rfl⟩

/-- A failing dispatch with a freshly recorded provisional label `sym`
(appended at the end of the table) leaves the code segment and IC
untouched and rolls the symbol table back to `base`: the error paths
delete exactly the provisional entry. -/
theorem parse_line_tail_fail_some (st st' : AsmState) (base : List symbol)
    (sym : symbol) (tok line : List Char)
    (hbase : st.symbol_table = base ++ [sym])
    (hfresh : ∀ t ∈ base, t.name ≠ sym.name)
    (h : parse_line_tail st (some sym.name) tok line = (false, st')) :
    st'.code = st.code ∧ st'.ic = st.ic ∧ st'.symbol_table = base := by
  have hdel : delete_symbol st.symbol_table sym.name = base := by
    rw [hbase]; exact delete_append_fresh base sym sym.name rfl hfresh
  have hset_inst :
      delete_symbol (set_symbol_type_addr st.symbol_table sym.name
        .INSTRUCTION st.ic) sym.name = base := by
    rw [hbase, set_append_fresh base sym sym.name _ _ rfl hfresh]
    exact delete_append_fresh base _ sym.name rfl hfresh
  have hset_dir :
      delete_symbol (set_symbol_type_addr st.symbol_table sym.name
        .DIRECTIVE st.dc) sym.name = base := by
    rw [hbase, set_append_fresh base sym sym.name _ _ rfl hfresh]
    exact delete_append_fresh base _ sym.name rfl hfresh
  simp only [parse_line_tail, rollback_label, label_to_instruction,
    label_to_directive] at h
  cases hop : find_operation tok with
  | some op_val =>
    rw [hop] at h
    simp only at h
    by_cases h1 : (extract_remaining_seq line [',', '\t', ' ']).headD '\x00' = ','
    · rw [if_pos h1] at h
      injection h with _ h2
      rw [← h2]
      exact ⟨rfl, rfl, hset_inst⟩
    · rw [if_neg h1] at h
      by_cases h2 : has_consecutive_commas
          (extract_remaining_seq line [',', '\t', ' ']) = true
      · rw [if_pos h2] at h
        injection h with _ h2'
        rw [← h2']
        exact ⟨rfl, rfl, hset_inst⟩
      · rw [if_neg h2] at h
        rcases hpo : process_operation
          { st with symbol_table :=
              (set_symbol_type_addr st.symbol_table sym.name
                statement_type.INSTRUCTION st.ic) }
          op_val (extract_remaining_seq line [',', '\t', ' ']) with ⟨b, st₂⟩
        rw [hpo] at h
        cases b with
        | true => simp at h
        | false =>
          rw [if_neg (by simp)] at h
          injection h with _ h2'
          have hst := process_operation_fail _ st₂ op_val _ hpo
          subst hst
          rw [← h2']
          exact ⟨rfl, rfl, hset_inst⟩
  | none =>
    rw [hop] at h
    simp only at h
    cases hdir : find_directive tok with
    | some dir_val =>
      rw [hdir] at h
      simp only at h
      by_cases hd : dir_val = directive.EXTERN_DIR ∨ dir_val = directive.ENTRY
      · rw [if_pos hd, if_pos hd] at h
        simp only [rollback_label] at h
        by_cases h1 : (extract_remaining_seq line [',', '\t', ' ']).headD '\x00' = ','
        · rw [if_pos h1] at h
          injection h with _ h2
          rw [← h2]
          exact ⟨rfl, rfl, hdel⟩
        · rw [if_neg h1] at h
          by_cases h2 : has_consecutive_commas
              (extract_remaining_seq line [',', '\t', ' ']) = true
          · rw [if_pos h2] at h
            injection h with _ h2'
            rw [← h2']
            exact ⟨rfl, rfl, hdel⟩
          · rw [if_neg h2] at h
            rcases hpd : process_directive
              { st with symbol_table := delete_symbol st.symbol_table sym.name }
              dir_val (extract_remaining_seq line [',', '\t', ' ']) with ⟨b, st₂⟩
            rw [hpd] at h
            cases b with
            | true => simp at h
            | false =>
              rw [if_neg (by simp)] at h
              injection h with _ h2'
              obtain ⟨hc, hi, hs⟩ := process_directive_fail _ st₂ dir_val _ hpd
              rw [← h2']
              exact ⟨hc, hi, by rw [hs]; exact hdel⟩
      · rw [if_neg hd, if_neg hd] at h
        simp only at h
        by_cases h1 : (extract_remaining_seq line [',', '\t', ' ']).headD '\x00' = ','
        · rw [if_pos h1] at h
          injection h with _ h2
          rw [← h2]
          exact ⟨rfl, rfl, hset_dir⟩
        · rw [if_neg h1] at h
          by_cases h2 : has_consecutive_commas
              (extract_remaining_seq line [',', '\t', ' ']) = true
          · rw [if_pos h2] at h
            injection h with _ h2'
            rw [← h2']
            exact ⟨rfl, rfl, hset_dir⟩
          · rw [if_neg h2] at h
            rcases hpd : process_directive
              { st with symbol_table :=
                  (set_symbol_type_addr st.symbol_table sym.name
                    statement_type.DIRECTIVE st.dc) }
              dir_val (extract_remaining_seq line [',', '\t', ' ']) with ⟨b, st₂⟩
            rw [hpd] at h
            cases b with
            | true => simp at h
            | false =>
              rw [if_neg (by simp)] at h
              injection h with _ h2'
              obtain ⟨hc, hi, hs⟩ := process_directive_fail _ st₂ dir_val _ hpd
              rw [← h2']
              exact ⟨hc, hi, by rw [hs]; exact hset_dir⟩
    | none =>
      rw [hdir] at h
      injection h with _ h2
      rw [← h2]
      exact ⟨rfl, rfl, hdel⟩

/-- Claim C4, amended.  A line that fails pass-1 validation leaves the
code segment, IC and the symbol table unchanged — any provisional label
is rolled back before the error returns — but the data segment and DC
are not always restored: a failing `.data` directive keeps the numeric
parameters it had already appended before detecting the error. -/
theorem c4_parse_line_fail_amended (st st' : AsmState) (line : List Char)
    (h : parse_line st line = (false, st')) :
    st'.code = st.code ∧ st'.ic = st.ic ∧
      st'.symbol_table = st.symbol_table := by
  simp only [parse_line] at h
  by_cases hsym : is_symbol (copy_next_token line [':', '\t', ' ']) true = true
  · rw [if_pos hsym] at h
    rcases hadd : add_symbol_to_list st
      ((copy_next_token line [':', '\t', ' ']).dropLast) DEFAULT_ADDR false
      with _ | st₁
    · rw [hadd] at h
      injection h with _ h2
      rw [← h2]
      exact ⟨rfl, rfl, rfl⟩
    · rw [hadd] at h
      simp only at h
      simp only [add_symbol_to_list] at hadd
      split_ifs at hadd with hex
      injection hadd with hadd'
      have hnone : find_symbol st.symbol_table
          ((copy_next_token line [':', '\t', ' ']).dropLast) = none := by
        simp only [is_existing_symbol] at hex
        exact Option.not_isSome_iff_eq_none.mp (by simpa using hex)
      have hfresh := (find_symbol_eq_none_iff _ _).mp hnone
      subst hadd'
      by_cases hemp : is_empty (extract_remaining_seq line [':']) = true
      · rw [if_pos hemp] at h
        injection h with _ h2
        rw [← h2]
        refine ⟨rfl, rfl, ?_⟩
        exact delete_append_fresh _ _ _ rfl hfresh
      · rw [if_neg hemp] at h
        obtain ⟨hc, hi, hs⟩ := parse_line_tail_fail_some _ st'
          st.symbol_table
          (create_symbol ((copy_next_token line [':', '\t', ' ']).dropLast)
            DEFAULT_ADDR false)
          _ _ rfl hfresh h
        exact ⟨hc, hi, hs⟩
  · rw [if_neg hsym] at h
    exact parse_line_tail_fail_none st st' _ _ h

/-- Claim C4, witness: the failing line `.data 7, x` applied through the
amended theorem: code, IC and the symbol table are unchanged. -/
theorem c4_parse_line_fail_amended_witness :
    (parse_line initState (".data 7, x".toList)).2.code = initState.code ∧
    (parse_line initState (".data 7, x".toList)).2.ic = initState.ic ∧
    (parse_line initState (".data 7, x".toList)).2.symbol_table =
      initState.symbol_table :=
  c4_parse_line_fail_amended initState _ (".data 7, x".toList) rfl

/-- Claim C4, counterexample.  The claim says a line that fails pass-1
validation leaves the data segment unchanged; but `.data 7, x` fails
(`DATA_NOT_NUM` at `x`) after having already appended the word 7 and
advanced DC. -/
theorem c4_counterexample :
    (parse_line initState (".data 7, x".toList)).1 = false ∧
    (parse_line initState (".data 7, x".toList)).2.dc = 1 ∧
    (parse_line initState (".data 7, x".toList)).2.data 0 = 7 ∧
    initState.dc = 0 ∧ initState.data 0 = 0 :=
  ⟨rfl, rfl, rfl, rfl, rfl⟩
